import Mathlib

/-!
Verification of the segment-based multi-speaker identification engine of the
HennessyNight repository.

The Python sources embedded here (shallowly) are:
* `multi_speaker_识别.py` — `split_audio_to_chunks`, `extract_chunk_embedding`
  (abstracted as an extraction oracle), `identify_multi_speaker`;
* `wespeaker_service.py` — `compute_similarity` (rescaled `[0,1]` policy);
* `3dspeaker_service.py` — `compute_similarity` (raw cosine policy);
* `transcribe_with_speaker.py` — `transcribe_with_speaker_identification`.

Modelling conventions:
* audio samples and similarity scores are rationals (`ℚ`), the exact-arithmetic
  reading of the Python floats; the two `compute_similarity` functions, whose
  claims are about real square roots, are modelled over `ℝ`;
* neural-network embedding extraction and audio file loading are oracles passed
  in as function parameters (the spec treats them as external capabilities);
* Python dicts that are built by insertion (`reference_embeddings`,
  `detected_speakers`) are association lists in insertion order, which is
  exactly the iteration order Python guarantees;
* fields that a Python result dict omits in some branch are modelled as
  `none` / `[]` / `false` in the corresponding branch of the result structure.
-/

namespace HennessyNight

/-! ## Chunker: `split_audio_to_chunks` (multi_speaker_识别.py lines 34-91)

The Python loop walks `audio` from `start_sample`, slicing
`audio[start_sample:start_sample+chunk_samples]`, breaking out of the loop as
soon as a slice is shorter than `sample_rate * 1.0` (one second), and otherwise
recording the slice with its start/end times and continuing at `end_sample`.

`chunk_samples = int(chunk_duration * sample_rate)` truncates toward zero,
which for the positive durations the CLI passes is the floor.

The loop is modelled on the suffix `rem = audio.drop start`; the fuel argument
bounds the number of iterations.  Every iteration that recurses has consumed a
slice of length at least `sample_rate ≥ 1`, so fuel `audio.length + 1` is never
exhausted for any real sample rate; a fuel of zero can only be reached when
`sample_rate = 0`, which `soundfile` never produces. -/

/-- One audio chunk as built by `split_audio_to_chunks`: the slice of samples,
the sample rate, and start/end times in seconds. -/
structure Chunk (α : Type) where
  audio : List α
  sample_rate : ℕ
  start_time : ℚ
  end_time : ℚ
deriving DecidableEq, Repr

/-- Python `int(chunk_duration * sample_rate)` (truncation = floor for the
positive values used). -/
def chunkSamples (chunkDuration : ℚ) (sr : ℕ) : ℕ :=
  (⌊chunkDuration * (sr : ℚ)⌋).toNat

/-- The `while start_sample < len(audio)` loop of `split_audio_to_chunks`,
on the remaining suffix `rem` with absolute offset `start` (in samples); the
slice `chunk = audio[start_sample:end_sample]` is `rem.take cs`. -/
def splitLoopF {α : Type} (sr cs : ℕ) : ℕ → List α → ℕ → List (Chunk α)
  | 0, _, _ => []
  | fuel + 1, rem, start =>
    if rem.isEmpty then []
    else if (rem.take cs).length < sr then []
    else
      { audio := rem.take cs, sample_rate := sr,
        start_time := (start : ℚ) / (sr : ℚ),
        end_time := ((start + (rem.take cs).length : ℕ) : ℚ) / (sr : ℚ) } ::
      splitLoopF sr cs fuel (rem.drop cs) (start + (rem.take cs).length)

/-- The chunker `split_audio_to_chunks` with the waveform already loaded and reduced to
mono (file loading is outside the core), and the chunk size in samples. -/
def split_audio_to_chunks {α : Type} (audio : List α) (sr cs : ℕ) : List (Chunk α) :=
  splitLoopF sr cs (audio.length + 1) audio 0

/-- Number of windows the spec's chunking description predicts: all full
windows, plus the trailing partial window when it is at least the one-second
minimum (`sr` samples). -/
def usableWindowCount (n cs sr : ℕ) : ℕ :=
  n / cs + if sr ≤ n % cs then 1 else 0

/-- The window list the claim describes: consecutive, non-overlapping spans of
`cs` samples starting at sample 0, the final span clipped to the waveform and
included only when it reaches the minimum duration. -/
def expectedWindows {α : Type} (audio : List α) (sr cs : ℕ) : List (Chunk α) :=
  (List.range (usableWindowCount audio.length cs sr)).map fun i =>
    { audio := (audio.drop (i * cs)).take cs, sample_rate := sr,
      start_time := ((i * cs : ℕ) : ℚ) / (sr : ℚ),
      end_time := ((min ((i + 1) * cs) audio.length : ℕ) : ℚ) / (sr : ℚ) }

/-! ## Claim C2 -/

/-- Claim C2 as stated: for a mono waveform and any `chunk_duration > 0`, the
chunker returns exactly the consecutive fixed-size windows from time 0, the
final partial window kept iff it reaches the minimum duration. -/
def claimC2Holds {α : Type} [DecidableEq α] (audio : List α) (sr : ℕ) (chunkDuration : ℚ) : Prop :=
  split_audio_to_chunks audio sr (chunkSamples chunkDuration sr)
    = expectedWindows audio sr (chunkSamples chunkDuration sr)

/-! ## Pipeline orchestrator: `identify_multi_speaker` (multi_speaker_识别.py 138-304)

Embedding extraction (`extract_chunk_embedding`, a neural-network call wrapped
in try/except that returns `None` on failure) is modelled as an oracle
`extract : Chunk ℚ → Option E`; gallery similarity
(`wespeaker_service.compute_similarity`) as an oracle `sim : E → E → S`.
Scores live in a linearly ordered type `S` with a zero (the code initializes
`best_score = 0` and only ever compares scores and takes maxima); the program
instantiates `S` with the floats, modelled exactly by `ℚ`. -/

/-- Per-speaker accumulator of `detected_speakers[speaker_id]`. -/
structure SpeakerInfo (S : Type) where
  count : ℕ
  max_confidence : S
  time_ranges : List (ℚ × ℚ)
deriving DecidableEq, Repr

/-- One entry of `all_identifications` (the per-window match records published
under the `chunks` key). -/
structure MatchRec (S : Type) where
  chunk_index : ℕ
  start_time : ℚ
  end_time : ℚ
  speaker_id : Option String
  confidence : S
deriving DecidableEq, Repr

/-- One entry of the `candidates` list. -/
structure Candidate (S : Type) where
  profileId : Option String
  confidence : S
  occurrences : ℕ
  timeRanges : List (ℚ × ℚ)
deriving DecidableEq, Repr

/-- The `detected_speakers` dict: an association list in insertion order.
The key is `Option String` because the loop variable `best_speaker` starts as
Python `None` and, when `threshold ≤ 0`, `None` itself can be recorded. -/
abbrev Detected (S : Type) := List (Option String × SpeakerInfo S)

/-- The result dict of `identify_multi_speaker`, all three return shapes
flattened into one structure. -/
structure IdResult (S : Type) where
  success : Bool
  error : Option String
  identified : Bool
  profileId : Option String
  speakerId : Option String
  confidence : Option S
  multiSpeaker : Bool
  detectedSpeakers : List (Option String)
  numDetectedSpeakers : ℕ
  candidates : List (Candidate S)
  chunks : List (MatchRec S)
deriving DecidableEq, Repr

variable {E S : Type}

/-- The inner matching loop over `reference_embeddings.items()` (lines
191-201) from an arbitrary running state: the running best is replaced
whenever `similarity > best_score` (strictly). -/
def bestMatchFold [LinearOrder S] (sim : E → E → S) (emb : E)
    (l : List (String × E)) (cur : Option String × S) : Option String × S :=
  l.foldl (fun best p => if best.2 < sim emb p.2 then (some p.1, sim emb p.2) else best) cur

/-- The matching loop started from `best_speaker = None; best_score = 0`. -/
def bestMatch [LinearOrder S] [Zero S] (sim : E → E → S) (emb : E)
    (gallery : List (String × E)) : Option String × S :=
  bestMatchFold sim emb gallery (none, 0)

/-- The `scores` dict of the matching loop: every gallery entry paired with its
similarity to the window embedding. -/
def windowScores (sim : E → E → S) (emb : E) (gallery : List (String × E)) :
    List (String × S) :=
  gallery.map fun p => (p.1, sim emb p.2)

/-- Lines 212-227: insert the speaker into `detected_speakers` if absent, then
increment `count`, update the running `max_confidence`, and append the window's
time range. -/
def updateDetected [LinearOrder S] [Zero S] (d : Detected S) (spk : Option String)
    (conf : S) (tr : ℚ × ℚ) : Detected S :=
  let d1 := if (d.lookup spk).isSome then d
    else d ++ [(spk, { count := 0, max_confidence := 0, time_ranges := [] })]
  d1.map fun p =>
    if p.1 = spk then
      (p.1, { count := p.2.count + 1,
              max_confidence := max p.2.max_confidence conf,
              time_ranges := p.2.time_ranges ++ [tr] })
    else p

/-- The main loop over `enumerate(chunks)` (lines 175-237), carrying the
`detected_speakers` dict and the `all_identifications` list: a window whose
extraction fails is skipped (`continue`); otherwise the gallery is matched and
the window is recorded only when `best_score >= threshold`. -/
def processChunks [LinearOrder S] [Zero S] (extract : Chunk ℚ → Option E)
    (sim : E → E → S) (gallery : List (String × E)) (threshold : S) :
    List (ℕ × Chunk ℚ) → Detected S × List (MatchRec S) → Detected S × List (MatchRec S)
  | [], st => st
  | (i, ch) :: rest, st =>
    match extract ch with
    | none => processChunks extract sim gallery threshold rest st
    | some emb =>
      if threshold ≤ (bestMatch sim emb gallery).2 then
        processChunks extract sim gallery threshold rest
          (updateDetected st.1 (bestMatch sim emb gallery).1 (bestMatch sim emb gallery).2
            (ch.start_time, ch.end_time),
           st.2 ++ [{ chunk_index := i, start_time := ch.start_time,
                      end_time := ch.end_time,
                      speaker_id := (bestMatch sim emb gallery).1,
                      confidence := (bestMatch sim emb gallery).2 }])
      else processChunks extract sim gallery threshold rest st

/-- One step of Python `max(..., key=lambda x: x[1]['count'])`: the running
best is replaced only on a strictly greater key. -/
def countStep {S : Type} (best p : Option String × SpeakerInfo S) :
    Option String × SpeakerInfo S :=
  if best.2.count < p.2.count then p else best

/-- Python `max(detected_speakers.items(), key=lambda x: x[1]['count'])`:
the first item (in insertion order) with the maximal count. -/
def maxByCount (d : Detected S) : Option (Option String × SpeakerInfo S) :=
  match d with
  | [] => none
  | x :: xs => some (xs.foldl countStep x)

/-- Stable insertion used to model Python's stable `sorted(..., reverse=True)`
by `max_confidence`: the new element goes after all elements with a
greater-or-equal key. -/
def insertByConf [LinearOrder S] (c : Candidate S) : List (Candidate S) → List (Candidate S)
  | [] => [c]
  | x :: xs => if x.confidence < c.confidence then c :: x :: xs else x :: insertByConf c xs

/-- Python `sorted(detected_speakers.items(), key=max_confidence, reverse=True)`
(stable descending sort). -/
def sortByConfDesc [LinearOrder S] (l : List (Candidate S)) : List (Candidate S) :=
  l.foldl (fun acc c => insertByConf c acc) []

/-- The error return of lines 165-169, produced when chunking yields no
usable windows. -/
def failedSplitResult (S : Type) : IdResult S :=
  { success := false, error := some "Failed to split audio", identified := false,
    profileId := none, speakerId := none, confidence := none, multiSpeaker := false,
    detectedSpeakers := [], numDetectedSpeakers := 0, candidates := [], chunks := [] }

/-- The `identified: False` return of lines 286-294, produced when no window
produced a match. -/
def notIdentifiedResult (S : Type) : IdResult S :=
  { success := true, error := none, identified := false,
    profileId := none, speakerId := none, confidence := none, multiSpeaker := false,
    detectedSpeakers := [], numDetectedSpeakers := 0, candidates := [], chunks := [] }

/-- The loop state after processing all chunks: the `detected_speakers` dict
and the `all_identifications` list. -/
def runState [LinearOrder S] [Zero S] (audio : List ℚ) (sr : ℕ)
    (gallery : List (String × E)) (threshold : S) (chunkDuration : ℚ)
    (extract : Chunk ℚ → Option E) (sim : E → E → S) :
    Detected S × List (MatchRec S) :=
  processChunks extract sim gallery threshold
    (split_audio_to_chunks audio sr (chunkSamples chunkDuration sr)).enum ([], [])

/-- The orchestrator `identify_multi_speaker` (lines 138-304): split the waveform; if no chunks,
return the error result; otherwise process every chunk and aggregate:
`primary_speaker` is the count-maximal entry of `detected_speakers`, the
candidates are sorted descending by `max_confidence`, and the result carries
the speakers in detection order. -/
def identify_multi_speaker [LinearOrder S] [Zero S] (audio : List ℚ) (sr : ℕ)
    (gallery : List (String × E)) (threshold : S) (chunkDuration : ℚ)
    (extract : Chunk ℚ → Option E) (sim : E → E → S) : IdResult S :=
  if (split_audio_to_chunks audio sr (chunkSamples chunkDuration sr)).isEmpty then
    failedSplitResult S
  else
    match maxByCount (runState audio sr gallery threshold chunkDuration extract sim).1 with
    | some primary =>
      { success := true, error := none, identified := true,
        profileId := primary.1, speakerId := primary.1,
        confidence := some primary.2.max_confidence,
        multiSpeaker :=
          decide (1 < (runState audio sr gallery threshold chunkDuration extract sim).1.length),
        detectedSpeakers :=
          (runState audio sr gallery threshold chunkDuration extract sim).1.map Prod.fst,
        numDetectedSpeakers :=
          (runState audio sr gallery threshold chunkDuration extract sim).1.length,
        candidates := sortByConfDesc
          ((runState audio sr gallery threshold chunkDuration extract sim).1.map fun p =>
            { profileId := p.1, confidence := p.2.max_confidence,
              occurrences := p.2.count, timeRanges := p.2.time_ranges }),
        chunks := (runState audio sr gallery threshold chunkDuration extract sim).2 }
    | none => notIdentifiedResult S

/-! ## Claim C1 -/

/-- Claim C1 as stated: whenever chunking yields zero usable windows, the
orchestrator returns a successful result with `identified = false` and empty
collections, not an error. -/
def claimC1Holds [LinearOrder S] [Zero S] (audio : List ℚ) (sr : ℕ)
    (gallery : List (String × E)) (threshold : S) (chunkDuration : ℚ)
    (extract : Chunk ℚ → Option E) (sim : E → E → S) : Prop :=
  split_audio_to_chunks audio sr (chunkSamples chunkDuration sr) = [] →
    (identify_multi_speaker audio sr gallery threshold chunkDuration extract sim).success = true ∧
    (identify_multi_speaker audio sr gallery threshold chunkDuration extract sim).identified = false ∧
    (identify_multi_speaker audio sr gallery threshold chunkDuration extract sim).detectedSpeakers = [] ∧
    (identify_multi_speaker audio sr gallery threshold chunkDuration extract sim).candidates = [] ∧
    (identify_multi_speaker audio sr gallery threshold chunkDuration extract sim).chunks = []

/-! ## Claim C4 -/

/-- Lexicographic order on character lists (by code point), used to state the
spec's lexicographic tie-break. -/
def charListLt : List Char → List Char → Bool
  | _, [] => false
  | [], _ :: _ => true
  | c :: cs, d :: ds =>
    if c.toNat < d.toNat then true
    else if d.toNat < c.toNat then false
    else charListLt cs ds

/-- Lexicographic order on detected-speaker keys; Python `None` sorts first. -/
def idLt (a b : Option String) : Bool :=
  match a, b with
  | none, none => false
  | none, some _ => true
  | some _, none => false
  | some s, some t => charListLt s.data t.data

/-- Modelled from the spec: "ties broken by highest `max_confidence`, then
lexicographic id" — `p` strictly precedes `q` in the spec's primary-speaker
order. -/
def specBetter [LinearOrder S] (p q : Option String × SpeakerInfo S) : Bool :=
  decide (q.2.count < p.2.count) ||
    (decide (p.2.count = q.2.count) &&
      (decide (q.2.max_confidence < p.2.max_confidence) ||
        (decide (p.2.max_confidence = q.2.max_confidence) && idLt p.1 q.1)))

/-- Modelled from the spec: the primary speaker the spec's selection rule
(count, then max_confidence, then lexicographic id) would pick. -/
def specPrimarySpeaker [LinearOrder S] (d : Detected S) : Option (Option String) :=
  match d with
  | [] => none
  | x :: xs => some (xs.foldl (fun best p => if specBetter p best then p else best) x).1

/-- Claim C4 as stated: whenever the run identifies a speaker, the primary
speaker is the one the spec's count/max-confidence/lexicographic rule picks. -/
def claimC4Holds [LinearOrder S] [Zero S] (audio : List ℚ) (sr : ℕ)
    (gallery : List (String × E)) (threshold : S) (chunkDuration : ℚ)
    (extract : Chunk ℚ → Option E) (sim : E → E → S) : Prop :=
  (identify_multi_speaker audio sr gallery threshold chunkDuration extract sim).identified = true →
    specPrimarySpeaker (runState audio sr gallery threshold chunkDuration extract sim).1
      = some (identify_multi_speaker audio sr gallery threshold chunkDuration extract sim).profileId

/-- A two-window scenario for C4: window 0 matches bob at 50, window 1 matches
alice at 90, threshold 40 (integer-valued scores). -/
def simC4 : List ℚ → List ℚ → ℤ := fun e r =>
  if e = [(0 : ℚ)] then (if r = [(10 : ℚ)] then 50 else 10)
  else (if r = [(11 : ℚ)] then 90 else 10)

/-! ## Claim C5 -/

/-- Modelled from the spec: among the gallery entries achieving the maximal
similarity score, the one whose identifier sorts first lexicographically. -/
def lexFirstArgmax [LinearOrder S] (sim : E → E → S) (emb : E) :
    List (String × E) → Option String
  | [] => none
  | p :: ps =>
    match ((windowScores sim emb (p :: ps)).filter fun q =>
        decide (q.2 = (windowScores sim emb (p :: ps)).foldl (fun m q2 => max m q2.2)
          (sim emb p.2))).map Prod.fst with
    | [] => none
    | w :: ws => some (ws.foldl (fun b t => if charListLt t.data b.data then t else b) w)

/-- Claim C5 as stated: on exact score ties the matcher picks the
lexicographically first identifier, independently of gallery iteration
order. -/
def claimC5Holds [LinearOrder S] [Zero S] (sim : E → E → S) (emb : E)
    (gallery : List (String × E)) : Prop :=
  (bestMatch sim emb gallery).1 = lexFirstArgmax sim emb gallery ∧
  ∀ gallery2 : List (String × E), gallery2.Perm gallery →
    (bestMatch sim emb gallery2).1 = (bestMatch sim emb gallery).1

/-! ## Claim C9 -/

/-- Claim C9 as stated: over the empty gallery the per-window matcher yields
no best speaker and an empty score list, and the whole run is reported as a
normal successful outcome with `identified = false` and no candidates. -/
def claimC9Holds [LinearOrder S] [Zero S] (audio : List ℚ) (sr : ℕ) (threshold : S)
    (chunkDuration : ℚ) (extract : Chunk ℚ → Option E) (sim : E → E → S) : Prop :=
  (∀ emb : E, bestMatch sim emb ([] : List (String × E)) = (none, 0) ∧
    windowScores sim emb ([] : List (String × E)) = []) ∧
  (identify_multi_speaker audio sr ([] : List (String × E)) threshold chunkDuration
    extract sim).success = true ∧
  (identify_multi_speaker audio sr ([] : List (String × E)) threshold chunkDuration
    extract sim).identified = false ∧
  (identify_multi_speaker audio sr ([] : List (String × E)) threshold chunkDuration
    extract sim).candidates = []

/-! ## Transcript fusion: `transcribe_with_speaker_identification`
(transcribe_with_speaker.py 26-208)

The transcription backend (FunASR) supplies the text segments; it is outside
the core, so the segment list is an input.  Embedding extraction here is a
direct model call with no per-segment try/except (a failure aborts the whole
run), so the extraction oracle is total. -/

/-- Python's `str.strip()` on the character list: drop leading and trailing
whitespace. -/
def stripChars (l : List Char) : List Char :=
  ((l.dropWhile Char.isWhitespace).reverse.dropWhile Char.isWhitespace).reverse

/-- Python `text.strip()`. -/
def pyStrip (s : String) : String :=
  String.mk (stripChars s.data)

/-- One FunASR text segment: `{text, start, end}`. -/
structure Segment where
  text : String
  start : ℚ
  end_ : ℚ
deriving DecidableEq, Repr

/-- One entry of `identified_segments`: the stripped text, the segment's
times, and the labeled speaker (name and confidence). -/
structure OutSegment (S : Type) where
  text : String
  start : ℚ
  end_ : ℚ
  speaker_name : Option String
  speaker_confidence : S
deriving DecidableEq, Repr

/-- Lines 106-108: `audio_data[int(start*sr):int(end*sr)]` (Python slicing
clamps; `int()` truncates, which is the floor for the non-negative times the
transcriber produces). -/
def segmentSlice (audio : List ℚ) (sr : ℕ) (seg : Segment) : List ℚ :=
  (audio.drop (⌊seg.start * (sr : ℚ)⌋).toNat).take
    ((⌊seg.end_ * (sr : ℚ)⌋).toNat - (⌊seg.start * (sr : ℚ)⌋).toNat)

/-- The body of the per-segment loop (lines 94-175): skip (no output) iff the
stripped text is empty; emit the "未识别" placeholder with confidence 0 for a
segment shorter than half a second; otherwise match the gallery and emit
either the matched speaker or the placeholder carrying the best score. -/
def processSegment [LinearOrder S] [Zero S] (audio : List ℚ) (sr : ℕ)
    (gallery : List (String × E)) (threshold : S) (extractSeg : List ℚ → E)
    (sim : E → E → S) (seg : Segment) : Option (OutSegment S) :=
  if pyStrip seg.text = "" then none
  else if ((segmentSlice audio sr seg).length : ℚ) < (sr : ℚ) * (1 / 2) then
    some { text := pyStrip seg.text, start := seg.start, end_ := seg.end_,
           speaker_name := some "未识别", speaker_confidence := 0 }
  else if threshold ≤ (bestMatch sim (extractSeg (segmentSlice audio sr seg)) gallery).2 then
    some { text := pyStrip seg.text, start := seg.start, end_ := seg.end_,
           speaker_name := (bestMatch sim (extractSeg (segmentSlice audio sr seg)) gallery).1,
           speaker_confidence :=
             (bestMatch sim (extractSeg (segmentSlice audio sr seg)) gallery).2 }
  else
    some { text := pyStrip seg.text, start := seg.start, end_ := seg.end_,
           speaker_name := some "未识别",
           speaker_confidence :=
             (bestMatch sim (extractSeg (segmentSlice audio sr seg)) gallery).2 }

/-- The `identified_segments` list built by the loop over `text_segments`. -/
def transcribe_with_speaker_identification [LinearOrder S] [Zero S] (audio : List ℚ)
    (sr : ℕ) (gallery : List (String × E)) (threshold : S) (extractSeg : List ℚ → E)
    (sim : E → E → S) : List Segment → List (OutSegment S)
  | [] => []
  | seg :: rest =>
    match processSegment audio sr gallery threshold extractSeg sim seg with
    | none => transcribe_with_speaker_identification audio sr gallery threshold extractSeg sim rest
    | some o =>
      o :: transcribe_with_speaker_identification audio sr gallery threshold extractSeg sim rest

/-! ## Claim C6 -/

/-- Claim C6 as stated: every input transcript segment produces exactly one
output entry, so the output and input lengths agree. -/
def claimC6Holds [LinearOrder S] [Zero S] (audio : List ℚ) (sr : ℕ)
    (gallery : List (String × E)) (threshold : S) (extractSeg : List ℚ → E)
    (sim : E → E → S) (segs : List Segment) : Prop :=
  (transcribe_with_speaker_identification audio sr gallery threshold extractSeg sim segs).length
    = segs.length

/-! ## Similarity scorer: `compute_similarity`
(wespeaker_service.py 127-151 and 3dspeaker_service.py 138-159)

Both scorers re-normalize each vector by `np.linalg.norm(v) + 1e-8` and take
the dot product; the WeSpeaker variant additionally rescales the cosine from
`[-1, 1]` to `[0, 1]` via `(similarity + 1) / 2`.  These are modelled over the
reals (exact arithmetic): `np.linalg.norm` is the Euclidean norm, i.e. the
real square root of the sum of squares. -/

/-- Python `np.dot` on two 1-d arrays. -/
noncomputable def dotList (a b : List ℝ) : ℝ :=
  (List.zipWith (fun x y => x * y) a b).sum

/-- Sum of squares of a vector's entries. -/
noncomputable def sumSq (a : List ℝ) : ℝ :=
  (a.map fun x => x * x).sum

/-- Python `np.linalg.norm` (Euclidean). -/
noncomputable def l2norm (a : List ℝ) : ℝ :=
  Real.sqrt (sumSq a)

/-- The `1e-8` guard added to each norm. -/
noncomputable def simEps : ℝ := 1 / 100000000

/-- Elementwise `v / (np.linalg.norm(v) + 1e-8)`. -/
noncomputable def normalizeVec (a : List ℝ) : List ℝ :=
  a.map fun x => x / (l2norm a + simEps)

namespace wespeaker_service

/-- WeSpeaker `compute_similarity`: cosine of the re-normalized
vectors, rescaled from `[-1, 1]` to `[0, 1]`. -/
noncomputable def compute_similarity (a b : List ℝ) : ℝ :=
  (dotList (normalizeVec a) (normalizeVec b) + 1) / 2

end wespeaker_service

namespace threedspeaker_service

/-- The 3D-Speaker `compute_similarity`: raw cosine of the re-normalized
vectors. -/
noncomputable def compute_similarity (a b : List ℝ) : ℝ :=
  dotList (normalizeVec a) (normalizeVec b)

end threedspeaker_service

/-! ## Claim C8 -/

/-- Claim C8 as stated: self-similarity equals the maximum of the configured
scale (1.0) in both the raw-cosine and the rescaled policy. -/
def claimC8Holds (a : List ℝ) : Prop :=
  wespeaker_service.compute_similarity a a = 1 ∧
  threedspeaker_service.compute_similarity a a = 1

/-! ## Lemmas and claim theorems -/

lemma usableWindowCount_zero (cs sr : ℕ) (hsr : 1 ≤ sr) : usableWindowCount 0 cs sr = 0 := by
  unfold usableWindowCount
  rw [Nat.zero_div, Nat.zero_mod, if_neg (by omega)]

lemma usableWindowCount_small (m cs sr : ℕ) (hm : m < sr) (hcs : sr ≤ cs) :
    usableWindowCount m cs sr = 0 := by
  unfold usableWindowCount
  rw [Nat.div_eq_of_lt (lt_of_lt_of_le hm hcs), Nat.mod_eq_of_lt (lt_of_lt_of_le hm hcs),
    if_neg (by omega)]

lemma usableWindowCount_one (m cs sr : ℕ) (hsr : 1 ≤ sr) (hm : sr ≤ m) (hcm : m ≤ cs) :
    usableWindowCount m cs sr = 1 := by
  unfold usableWindowCount
  rcases Nat.lt_or_ge m cs with h1 | h1
  · rw [Nat.div_eq_of_lt h1, Nat.mod_eq_of_lt h1, if_pos hm]
  · have heq : m = cs := le_antisymm hcm h1
    subst heq
    rw [Nat.div_self (by omega), Nat.mod_self, if_neg (by omega)]

lemma usableWindowCount_step (m cs sr : ℕ) (hpos : 0 < cs) (hcm : cs < m) :
    usableWindowCount m cs sr = usableWindowCount (m - cs) cs sr + 1 := by
  unfold usableWindowCount
  rw [Nat.div_eq_sub_div hpos (le_of_lt hcm), Nat.mod_eq_sub_mod (le_of_lt hcm)]
  omega

/-- Characterization of the chunking loop when the chunk size is at least the
one-second minimum: it produces exactly the windows the spec describes. -/
lemma splitLoopF_characterization {α : Type} (sr cs : ℕ) (hsr : 1 ≤ sr) (hcs : sr ≤ cs) :
    ∀ (fuel : ℕ) (rem : List α) (start : ℕ), rem.length < fuel →
      splitLoopF sr cs fuel rem start =
        (List.range (usableWindowCount rem.length cs sr)).map fun i =>
          { audio := (rem.drop (i * cs)).take cs, sample_rate := sr,
            start_time := ((start + i * cs : ℕ) : ℚ) / (sr : ℚ),
            end_time := ((start + min ((i + 1) * cs) rem.length : ℕ) : ℚ) / (sr : ℚ) } := by
  intro fuel
  induction fuel with
  | zero => intro rem start h; exact absurd h (by omega)
  | succ fuel ih =>
    intro rem start h
    cases rem with
    | nil =>
      simp only [List.length_nil]
      rw [usableWindowCount_zero cs sr hsr]
      simp [splitLoopF]
    | cons x rest =>
      simp only [List.length_cons] at h ⊢
      have hclen : ((x :: rest).take cs).length = min cs (rest.length + 1) := by
        rw [List.length_take, List.length_cons]
      have hne : ¬ ((x :: rest).isEmpty = true) := by simp
      rcases Nat.lt_or_ge (rest.length + 1) sr with hsmall | hbig
      · -- whole remaining suffix shorter than the minimum: break, no window
        have hbreak : ((x :: rest).take cs).length < sr := by rw [hclen]; omega
        rw [usableWindowCount_small (rest.length + 1) cs sr hsmall hcs]
        simp only [List.range_zero, List.map_nil, splitLoopF]
        rw [if_neg hne, if_pos hbreak]
      · -- the slice reaches the minimum: a window is recorded
        have hnobreak : ¬ ((x :: rest).take cs).length < sr := by rw [hclen]; omega
        rcases Nat.lt_or_ge cs (rest.length + 1) with hcm | hcm
        · -- full window of cs samples, and the loop continues
          have hclen2 : ((x :: rest).take cs).length = cs := by rw [hclen]; omega
          have hdrop : ((x :: rest).drop cs).length = rest.length + 1 - cs := by
            rw [List.length_drop, List.length_cons]
          have hrec := ih ((x :: rest).drop cs) (start + cs) (by omega)
          rw [hdrop] at hrec
          simp only [splitLoopF]
          rw [if_neg hne, if_neg hnobreak, hclen2, hrec,
            usableWindowCount_step (rest.length + 1) cs sr (by omega) hcm, List.range_succ_eq_map,
            List.map_cons, List.map_map]
          congr 1
          · -- the head window
            have h0 : (x :: rest).drop (0 * cs) = x :: rest := by simp
            have h1 : start + 0 * cs = start := by ring
            have h2 : min ((0 + 1) * cs) (rest.length + 1) = cs := by
              have he : (0 + 1) * cs = cs := by ring
              rw [he]; omega
            rw [h0, h1, h2]
          · -- remaining windows, re-indexed
            apply List.map_congr_left
            intro i _
            simp only [Function.comp]
            have ha : (x :: rest).drop ((i + 1) * cs) = ((x :: rest).drop cs).drop (i * cs) := by
              rw [List.drop_drop]
              congr 1
              ring
            have hb : start + (i + 1) * cs = start + cs + i * cs := by ring
            have hc : start + min ((i + 1 + 1) * cs) (rest.length + 1)
                = start + cs + min ((i + 1) * cs) (rest.length + 1 - cs) := by
              have e1 : (i + 1 + 1) * cs = i * cs + 2 * cs := by ring
              have e2 : (i + 1) * cs = i * cs + cs := by ring
              rw [e1, e2]
              generalize i * cs = t
              omega
            rw [← ha, hb, hc]
        · -- final (possibly partial) window: the loop then stops
          have hclen2 : ((x :: rest).take cs).length = rest.length + 1 := by rw [hclen]; omega
          have hdrop : (x :: rest).drop cs = [] := by
            apply List.drop_eq_nil_of_le
            rw [List.length_cons]; omega
          have hrec := ih ([] : List α) (start + (rest.length + 1))
            (by simp only [List.length_nil]; omega)
          simp only [List.length_nil] at hrec
          rw [usableWindowCount_zero cs sr hsr] at hrec
          simp only [List.range_zero, List.map_nil] at hrec
          simp only [splitLoopF]
          rw [if_neg hne, if_neg hnobreak, hclen2, hdrop, hrec,
            usableWindowCount_one (rest.length + 1) cs sr hsr hbig hcm]
          simp only [List.range_succ_eq_map, List.range_zero, List.map_nil, List.map_cons]
          have h0 : (x :: rest).drop (0 * cs) = x :: rest := by simp
          have h1 : start + 0 * cs = start := by ring
          have h2 : min ((0 + 1) * cs) (rest.length + 1) = rest.length + 1 := by
            have he : (0 + 1) * cs = cs := by ring
            rw [he]; omega
          rw [h0, h1, h2]

/-- When the chunk size is below the one-second minimum, the very first slice
already fails the minimum-length check, so the chunker returns no windows. -/
lemma split_audio_to_chunks_eq_nil_of_lt {α : Type} (audio : List α) (sr cs : ℕ)
    (h : cs < sr) : split_audio_to_chunks audio sr cs = [] := by
  unfold split_audio_to_chunks
  cases audio with
  | nil => simp [splitLoopF]
  | cons x rest =>
    have hbreak : ((x :: rest).take cs).length < sr := by
      rw [List.length_take]
      omega
    simp only [splitLoopF]
    rw [if_neg (by simp), if_pos hbreak]

lemma split_audio_to_chunks_characterization {α : Type} (audio : List α) (sr cs : ℕ)
    (hsr : 1 ≤ sr) (hcs : sr ≤ cs) :
    split_audio_to_chunks audio sr cs = expectedWindows audio sr cs := by
  unfold split_audio_to_chunks expectedWindows
  rw [splitLoopF_characterization sr cs hsr hcs (audio.length + 1) audio 0 (by omega)]
  apply List.map_congr_left
  intro i _
  simp

/-- C2 fails as stated: with `chunk_duration = 0.5 s` (below the one-second
minimum) every slice fails the minimum-length check, so the chunker returns no
windows at all, not the four half-second windows the claim describes. -/
theorem c2_chunker_counterexample :
    ¬ claimC2Holds (List.replicate 8 (0 : ℚ)) 4 (1 / 2) := by
  have hcs : chunkSamples (1 / 2) 4 = 2 := by
    unfold chunkSamples
    rw [show (1 / 2 : ℚ) * ((4 : ℕ) : ℚ) = 2 by norm_num]
    simp
  unfold claimC2Holds
  rw [hcs, split_audio_to_chunks_eq_nil_of_lt _ _ _ (by omega)]
  intro h
  have hlen := congrArg List.length h
  simp [expectedWindows, usableWindowCount] at hlen

/-- C2 (amended): when the chunk size is at least the one-second minimum
(`sample_rate` samples) the chunker returns exactly the consecutive
non-overlapping windows of `chunk_samples` samples starting at time 0, the
final partial window included iff it lasts at least the minimum; but when
`chunk_duration` is below the minimum the chunker instead returns no windows at
all (the Python loop `break`s on the first short slice, which is then every
slice). -/
theorem c2_chunker_amended {α : Type} (audio : List α) (sr : ℕ) (cd : ℚ) (hsr : 1 ≤ sr) :
    (sr ≤ chunkSamples cd sr →
      split_audio_to_chunks audio sr (chunkSamples cd sr)
        = expectedWindows audio sr (chunkSamples cd sr)) ∧
    (chunkSamples cd sr < sr →
      split_audio_to_chunks audio sr (chunkSamples cd sr) = []) :=
  ⟨fun h => split_audio_to_chunks_characterization audio sr _ hsr h,
   fun h => split_audio_to_chunks_eq_nil_of_lt audio sr _ h⟩

/-- Witness: the amended C2 theorem applied to a concrete 2-second waveform at
4 samples per second with `chunk_duration = 1 s`. -/
theorem c2_chunker_amended_witness :
    split_audio_to_chunks (List.replicate 8 (0 : ℚ)) 4 (chunkSamples 1 4)
      = expectedWindows (List.replicate 8 (0 : ℚ)) 4 (chunkSamples 1 4) :=
  (c2_chunker_amended (List.replicate 8 (0 : ℚ)) 4 1 (by omega)).1 (by
    unfold chunkSamples
    rw [show (1 : ℚ) * ((4 : ℕ) : ℚ) = 4 by norm_num]
    simp)

/-- C1 fails as stated: on a waveform with zero usable windows (here the empty
waveform) `identify_multi_speaker` takes the `if not chunks` branch of lines
165-169 and reports `success: False` with an error message — not a successful
`identified: false` result. -/
theorem c1_pipeline_counterexample :
    ¬ claimC1Holds (E := ℕ) (S := ℤ) [] 1 [] 0 4 (fun _ => none) (fun _ _ => 0) := by
  unfold claimC1Holds
  decide

/-- C1 (amended): whenever chunking yields zero usable windows, the
orchestrator reports the run as an error: it returns the lines-165-169 dict
`success: False, error: "Failed to split audio"` (no `identified` field); the
successful `identified: false` shape is reserved for runs that had windows but
no match. -/
theorem c1_empty_chunking_returns_error [LinearOrder S] [Zero S] (audio : List ℚ)
    (sr : ℕ) (gallery : List (String × E)) (threshold : S) (chunkDuration : ℚ)
    (extract : Chunk ℚ → Option E) (sim : E → E → S)
    (h : split_audio_to_chunks audio sr (chunkSamples chunkDuration sr) = []) :
    identify_multi_speaker audio sr gallery threshold chunkDuration extract sim
      = failedSplitResult S := by
  unfold identify_multi_speaker
  rw [h]
  simp

/-- Witness: the amended C1 theorem applied to the empty waveform. -/
theorem c1_empty_chunking_returns_error_witness :
    identify_multi_speaker (E := ℕ) (S := ℤ) [] 1 [] 0 4 (fun _ => none) (fun _ _ => 0)
      = failedSplitResult ℤ :=
  c1_empty_chunking_returns_error [] 1 [] 0 4 (fun _ => none) (fun _ _ => 0) rfl

/-! ## Claim C3 -/

lemma processChunks_cons_none [LinearOrder S] [Zero S] (extract : Chunk ℚ → Option E)
    (sim : E → E → S) (gallery : List (String × E)) (threshold : S) (i : ℕ) (ch : Chunk ℚ)
    (rest : List (ℕ × Chunk ℚ)) (st : Detected S × List (MatchRec S))
    (hext : extract ch = none) :
    processChunks extract sim gallery threshold ((i, ch) :: rest) st
      = processChunks extract sim gallery threshold rest st := by
  simp only [processChunks, hext]

lemma processChunks_cons_some_hit [LinearOrder S] [Zero S] (extract : Chunk ℚ → Option E)
    (sim : E → E → S) (gallery : List (String × E)) (threshold : S) (i : ℕ) (ch : Chunk ℚ)
    (rest : List (ℕ × Chunk ℚ)) (st : Detected S × List (MatchRec S)) (emb : E)
    (hext : extract ch = some emb) (hth : threshold ≤ (bestMatch sim emb gallery).2) :
    processChunks extract sim gallery threshold ((i, ch) :: rest) st
      = processChunks extract sim gallery threshold rest
          (updateDetected st.1 (bestMatch sim emb gallery).1 (bestMatch sim emb gallery).2
            (ch.start_time, ch.end_time),
           st.2 ++ [{ chunk_index := i, start_time := ch.start_time,
                      end_time := ch.end_time,
                      speaker_id := (bestMatch sim emb gallery).1,
                      confidence := (bestMatch sim emb gallery).2 }]) := by
  simp only [processChunks, hext, if_pos hth]

lemma processChunks_cons_some_miss [LinearOrder S] [Zero S] (extract : Chunk ℚ → Option E)
    (sim : E → E → S) (gallery : List (String × E)) (threshold : S) (i : ℕ) (ch : Chunk ℚ)
    (rest : List (ℕ × Chunk ℚ)) (st : Detected S × List (MatchRec S)) (emb : E)
    (hext : extract ch = some emb) (hth : ¬ threshold ≤ (bestMatch sim emb gallery).2) :
    processChunks extract sim gallery threshold ((i, ch) :: rest) st
      = processChunks extract sim gallery threshold rest st := by
  simp only [processChunks, hext, if_neg hth]

/-- Invariant: a window is appended to `all_identifications` only under the
`best_score >= threshold` guard, so the guard bound propagates through the
whole loop. -/
lemma processChunks_matches_bounded [LinearOrder S] [Zero S] (extract : Chunk ℚ → Option E)
    (sim : E → E → S) (gallery : List (String × E)) (threshold : S) :
    ∀ (l : List (ℕ × Chunk ℚ)) (st : Detected S × List (MatchRec S)),
      (∀ m ∈ st.2, threshold ≤ m.confidence) →
      ∀ m ∈ (processChunks extract sim gallery threshold l st).2, threshold ≤ m.confidence := by
  intro l
  induction l with
  | nil => intro st h m hm; exact h m hm
  | cons p rest ih =>
    obtain ⟨i, ch⟩ := p
    intro st h m hm
    cases hext : extract ch with
    | none =>
      rw [processChunks_cons_none extract sim gallery threshold i ch rest st hext] at hm
      exact ih st h m hm
    | some emb =>
      by_cases hth : threshold ≤ (bestMatch sim emb gallery).2
      · rw [processChunks_cons_some_hit extract sim gallery threshold i ch rest st emb
          hext hth] at hm
        refine ih _ ?_ m hm
        intro m2 hm2
        rcases List.mem_append.mp hm2 with h1 | h1
        · exact h m2 h1
        · rw [List.mem_singleton.mp h1]
          exact hth
      · rw [processChunks_cons_some_miss extract sim gallery threshold i ch rest st emb
          hext hth] at hm
        exact ih st h m hm

/-- Claim C3 (confirmed): a window is recorded as a match only when its best
similarity score clears the threshold (the `best_score >= threshold` guard of
line 208); below the threshold the window is left unmatched even though its
best score was computed, so no reported match in the result's `chunks` list
ever carries a confidence below the threshold. -/
theorem c3_no_reported_match_below_threshold [LinearOrder S] [Zero S] (audio : List ℚ)
    (sr : ℕ) (gallery : List (String × E)) (threshold : S) (chunkDuration : ℚ)
    (extract : Chunk ℚ → Option E) (sim : E → E → S) :
    ((identify_multi_speaker audio sr gallery threshold chunkDuration extract sim).chunks.all
      fun m => threshold ≤ m.confidence) = true := by
  rw [List.all_eq_true]
  intro m hm
  rw [decide_eq_true_eq]
  revert hm
  unfold identify_multi_speaker
  by_cases hsplit :
      (split_audio_to_chunks audio sr (chunkSamples chunkDuration sr)).isEmpty
  · rw [if_pos hsplit]
    intro hm
    exact absurd hm (by simp [failedSplitResult])
  · rw [if_neg hsplit]
    cases hmax : maxByCount (runState audio sr gallery threshold chunkDuration extract sim).1 with
    | none =>
      intro hm
      exact absurd hm (by simp [notIdentifiedResult])
    | some primary =>
      intro hm
      simp only at hm
      exact processChunks_matches_bounded extract sim gallery threshold _ ([], [])
        (by intro m2 hm2; exact absurd hm2 (by simp)) m hm

/-- C4 fails as stated: with matches bob@50 then alice@90 (both count 1),
Python's `max` keeps the first-inserted speaker bob, while the spec's
tie-break (higher max_confidence) demands alice. -/
theorem c4_primary_counterexample :
    ¬ claimC4Holds (E := List ℚ) (S := ℤ) [0, 1] 1
      [("bob", [(10 : ℚ)]), ("alice", [(11 : ℚ)])] 40 1
      (fun c => some c.audio) simC4 := by
  have hcs : chunkSamples 1 1 = 1 := by
    unfold chunkSamples
    rw [show (1 : ℚ) * ((1 : ℕ) : ℚ) = 1 by norm_num]
    simp
  unfold claimC4Holds
  simp only [identify_multi_speaker, runState, hcs]
  decide

/-- Python's `max` over an association list picks the first entry whose count
is maximal: the fold result occurs in the list, every entry's count is at most
its count, and every entry strictly before it has a strictly smaller count. -/
lemma foldl_countStep_first_max {S : Type} (xs : List (Option String × SpeakerInfo S))
    (a : Option String × SpeakerInfo S) :
    ∃ l₁ l₂,
      a :: xs = l₁ ++ (xs.foldl countStep a) :: l₂ ∧
      (∀ p ∈ a :: xs, p.2.count ≤ (xs.foldl countStep a).2.count) ∧
      (∀ p ∈ l₁, p.2.count < (xs.foldl countStep a).2.count) := by
  induction xs generalizing a with
  | nil =>
    refine ⟨[], [], rfl, ?_, by simp⟩
    intro p hp
    rw [List.foldl_nil]
    rw [List.mem_singleton.mp hp]
  | cons y ys ih =>
    by_cases hy : a.2.count < y.2.count
    · have hstep : (y :: ys).foldl countStep a = ys.foldl countStep y := by
        simp [List.foldl_cons, countStep, if_pos hy]
      obtain ⟨l₁, l₂, heq, hmax, hlt⟩ := ih y
      refine ⟨a :: l₁, l₂, ?_, ?_, ?_⟩
      · rw [hstep, List.cons_append, ← heq]
      · intro p hp
        rw [hstep]
        rcases List.mem_cons.mp hp with hpa | hp2
        · rw [hpa]
          exact le_of_lt (lt_of_lt_of_le hy (hmax y (List.mem_cons_self y ys)))
        · exact hmax p hp2
      · intro p hp
        rw [hstep]
        rcases List.mem_cons.mp hp with hpa | hp2
        · rw [hpa]
          exact lt_of_lt_of_le hy (hmax y (List.mem_cons_self y ys))
        · exact hlt p hp2
    · have hstep : (y :: ys).foldl countStep a = ys.foldl countStep a := by
        simp [List.foldl_cons, countStep, if_neg hy]
      obtain ⟨l₁, l₂, heq, hmax, hlt⟩ := ih a
      cases l₁ with
      | nil =>
        simp only [List.nil_append] at heq
        have ha : ys.foldl countStep a = a := ((List.cons.inj heq).1).symm
        refine ⟨[], y :: ys, ?_, ?_, by simp⟩
        · rw [hstep, ha]
          simp
        · intro p hp
          rw [hstep, ha]
          rcases List.mem_cons.mp hp with hpa | hp2
          · rw [hpa]
          · rcases List.mem_cons.mp hp2 with hpy | hp3
            · rw [hpy]; omega
            · have := hmax p (List.mem_cons_of_mem a hp3)
              rw [ha] at this
              exact this
      | cons b l₁t =>
        rw [List.cons_append] at heq
        obtain ⟨hb, hys⟩ := List.cons.inj heq
        refine ⟨a :: y :: l₁t, l₂, ?_, ?_, ?_⟩
        · rw [hstep]
          simp only [List.cons_append]
          rw [← hys]
        · intro p hp
          rw [hstep]
          rcases List.mem_cons.mp hp with hpa | hp2
          · rw [hpa]
            exact hmax a (List.mem_cons_self a ys)
          · rcases List.mem_cons.mp hp2 with hpy | hp3
            · have halt : a.2.count < (ys.foldl countStep a).2.count := by
                apply hlt
                rw [← hb]
                exact List.mem_cons_self a l₁t
              rw [hpy]
              omega
            · exact hmax p (List.mem_cons_of_mem a hp3)
        · intro p hp
          rw [hstep]
          have halt : a.2.count < (ys.foldl countStep a).2.count := by
            apply hlt
            rw [← hb]
            exact List.mem_cons_self a l₁t
          rcases List.mem_cons.mp hp with hpa | hp2
          · rw [hpa]; exact halt
          · rcases List.mem_cons.mp hp2 with hpy | hp3
            · rw [hpy]; omega
            · exact hlt p (List.mem_cons_of_mem b hp3)

/-- C4 (amended): the primary speaker is the FIRST speaker, in detection
(insertion) order, among those with the maximal window count — Python's
`max(...)` keeps the earliest item on count ties, so ties are broken by which
speaker was matched first, not by `max_confidence` or lexicographic id. -/
theorem c4_primary_is_first_count_max [LinearOrder S] [Zero S] (audio : List ℚ) (sr : ℕ)
    (gallery : List (String × E)) (threshold : S) (chunkDuration : ℚ)
    (extract : Chunk ℚ → Option E) (sim : E → E → S)
    (hid : (identify_multi_speaker audio sr gallery threshold chunkDuration extract sim).identified
      = true) :
    ∃ l₁ k info l₂,
      (runState audio sr gallery threshold chunkDuration extract sim).1
        = l₁ ++ (k, info) :: l₂ ∧
      (identify_multi_speaker audio sr gallery threshold chunkDuration extract sim).profileId
        = k ∧
      (∀ p ∈ (runState audio sr gallery threshold chunkDuration extract sim).1,
        p.2.count ≤ info.count) ∧
      (∀ p ∈ l₁, p.2.count < info.count) := by
  unfold identify_multi_speaker at hid ⊢
  by_cases hsplit : (split_audio_to_chunks audio sr (chunkSamples chunkDuration sr)).isEmpty
  · rw [if_pos hsplit] at hid
    exact absurd hid (by simp [failedSplitResult])
  · rw [if_neg hsplit] at hid ⊢
    cases hmax : maxByCount (runState audio sr gallery threshold chunkDuration extract sim).1 with
    | none =>
      rw [hmax] at hid
      exact absurd hid (by simp [notIdentifiedResult])
    | some primary =>
      simp only
      unfold maxByCount at hmax
      cases hd : (runState audio sr gallery threshold chunkDuration extract sim).1 with
      | nil => rw [hd] at hmax; exact absurd hmax (by simp)
      | cons x xs =>
        rw [hd] at hmax
        simp only [Option.some.injEq] at hmax
        obtain ⟨l₁, l₂, heq, hmaxall, hlt⟩ := foldl_countStep_first_max xs x
        refine ⟨l₁, primary.1, primary.2, l₂, ?_, rfl, ?_, ?_⟩
        · rw [Prod.mk.eta, ← hmax]
          exact heq
        · intro p hp
          rw [← hmax]
          exact hmaxall p hp
        · intro p hp
          rw [← hmax]
          exact hlt p hp

/-- Witness: the amended C4 theorem applied to the two-window bob/alice
scenario (bob matched first, both counts 1). -/
theorem c4_primary_is_first_count_max_witness :
    ∃ l₁ k info l₂,
      (runState (E := List ℚ) (S := ℤ) [0, 1] 1
        [("bob", [(10 : ℚ)]), ("alice", [(11 : ℚ)])] 40 1
        (fun c => some c.audio) simC4).1 = l₁ ++ (k, info) :: l₂ ∧
      (identify_multi_speaker (E := List ℚ) (S := ℤ) [0, 1] 1
        [("bob", [(10 : ℚ)]), ("alice", [(11 : ℚ)])] 40 1
        (fun c => some c.audio) simC4).profileId = k ∧
      (∀ p ∈ (runState (E := List ℚ) (S := ℤ) [0, 1] 1
        [("bob", [(10 : ℚ)]), ("alice", [(11 : ℚ)])] 40 1
        (fun c => some c.audio) simC4).1, p.2.count ≤ info.count) ∧
      (∀ p ∈ l₁, p.2.count < info.count) :=
  c4_primary_is_first_count_max [0, 1] 1
    [("bob", [(10 : ℚ)]), ("alice", [(11 : ℚ)])] 40 1
    (fun c => some c.audio) simC4 (by
      have hcs : chunkSamples 1 1 = 1 := by
        unfold chunkSamples
        rw [show (1 : ℚ) * ((1 : ℕ) : ℚ) = 1 by norm_num]
        simp
      simp only [identify_multi_speaker, runState, hcs]
      decide)

/-- C5 fails as stated: with two speakers "b" then "a" at the identical score,
the strict `similarity > best_score` comparison keeps the first-iterated entry
"b", not the lexicographically first "a"; reordering the gallery flips the
answer, so the choice depends on iteration order. -/
theorem c5_tie_break_counterexample :
    ¬ claimC5Holds (E := ℕ) (S := ℤ) (fun _ _ => 1) 0 [("b", 0), ("a", 0)] ∧
    (bestMatch (E := ℕ) (S := ℤ) (fun _ _ => 1) 0 [("b", 0), ("a", 0)]).1
      ≠ (bestMatch (E := ℕ) (S := ℤ) (fun _ _ => 1) 0 [("a", 0), ("b", 0)]).1 := by
  constructor
  · intro h
    have h1 := h.1
    revert h1
    decide
  · decide

/-- The matching loop from an arbitrary running state either never improves on
it (all scores at most the running one), or ends at the first entry attaining
the maximal score, every earlier entry scoring strictly lower. -/
lemma bestMatchFold_spec [LinearOrder S] (sim : E → E → S) (emb : E) :
    ∀ (l : List (String × E)) (cur : Option String × S),
      (bestMatchFold sim emb l cur = cur ∧ ∀ p ∈ l, sim emb p.2 ≤ cur.2) ∨
      (∃ l₁ q l₂, l = l₁ ++ q :: l₂ ∧
        bestMatchFold sim emb l cur = (some q.1, sim emb q.2) ∧
        cur.2 < sim emb q.2 ∧
        (∀ p ∈ l₁, sim emb p.2 < sim emb q.2) ∧
        (∀ p ∈ l₂, sim emb p.2 ≤ sim emb q.2)) := by
  intro l
  induction l with
  | nil => intro cur; left; exact ⟨rfl, by simp⟩
  | cons y ys ih =>
    intro cur
    by_cases hy : cur.2 < sim emb y.2
    · have hstep : bestMatchFold sim emb (y :: ys) cur
          = bestMatchFold sim emb ys (some y.1, sim emb y.2) := by
        simp [bestMatchFold, List.foldl_cons, if_pos hy]
      rcases ih (some y.1, sim emb y.2) with ⟨hfold, hall⟩ | ⟨l₁, q, l₂, heq, hfold, hcur, hl₁, hl₂⟩
      · right
        refine ⟨[], y, ys, by simp, ?_, hy, by simp, ?_⟩
        · rw [hstep, hfold]
        · intro p hp
          exact hall p hp
      · right
        refine ⟨y :: l₁, q, l₂, by rw [heq, List.cons_append], ?_, ?_, ?_, hl₂⟩
        · rw [hstep, hfold]
        · exact lt_trans hy hcur
        · intro p hp
          rcases List.mem_cons.mp hp with hpy | hp2
          · rw [hpy]
            exact hcur
          · exact hl₁ p hp2
    · have hstep : bestMatchFold sim emb (y :: ys) cur = bestMatchFold sim emb ys cur := by
        simp [bestMatchFold, List.foldl_cons, if_neg hy]
      rcases ih cur with ⟨hfold, hall⟩ | ⟨l₁, q, l₂, heq, hfold, hcur, hl₁, hl₂⟩
      · left
        refine ⟨by rw [hstep, hfold], ?_⟩
        intro p hp
        rcases List.mem_cons.mp hp with hpy | hp2
        · rw [hpy]
          exact le_of_not_lt hy
        · exact hall p hp2
      · right
        refine ⟨y :: l₁, q, l₂, by rw [heq, List.cons_append], ?_, hcur, ?_, hl₂⟩
        · rw [hstep, hfold]
        · intro p hp
          rcases List.mem_cons.mp hp with hpy | hp2
          · rw [hpy]
            exact lt_of_le_of_lt (le_of_not_lt hy) hcur
          · exact hl₁ p hp2

/-- C5 (amended): when some gallery entry scores positively, the matcher
returns the FIRST entry, in gallery iteration order, attaining the maximal
score — on exact ties the earliest-iterated identifier wins (not the
lexicographically first), so the choice depends on the gallery's insertion
order. -/
theorem c5_tie_keeps_first_gallery_entry [LinearOrder S] [Zero S] (sim : E → E → S)
    (emb : E) (gallery : List (String × E)) (h : ∃ p ∈ gallery, 0 < sim emb p.2) :
    ∃ l₁ q l₂, gallery = l₁ ++ q :: l₂ ∧
      bestMatch sim emb gallery = (some q.1, sim emb q.2) ∧
      (∀ p ∈ gallery, sim emb p.2 ≤ sim emb q.2) ∧
      (∀ p ∈ l₁, sim emb p.2 < sim emb q.2) := by
  rcases bestMatchFold_spec sim emb gallery (none, 0) with ⟨hfold, hall⟩
    | ⟨l₁, q, l₂, heq, hfold, hcur, hl₁, hl₂⟩
  · obtain ⟨p, hp, hpos⟩ := h
    exact absurd (hall p hp) (not_le.mpr hpos)
  · refine ⟨l₁, q, l₂, heq, hfold, ?_, hl₁⟩
    intro p hp
    rw [heq] at hp
    rcases List.mem_append.mp hp with hp1 | hp2
    · exact le_of_lt (hl₁ p hp1)
    · rcases List.mem_cons.mp hp2 with hpq | hp3
      · rw [hpq]
      · exact hl₂ p hp3

/-- Witness: the amended C5 theorem applied to the tied "b"-then-"a"
gallery. -/
theorem c5_tie_keeps_first_gallery_entry_witness :
    ∃ l₁ q l₂, [("b", 0), ("a", 0)] = l₁ ++ q :: l₂ ∧
      bestMatch (E := ℕ) (S := ℤ) (fun _ _ => 1) 0 [("b", 0), ("a", 0)]
        = (some q.1, (fun (_ : ℕ) (_ : ℕ) => (1 : ℤ)) 0 q.2) ∧
      (∀ p ∈ [("b", 0), ("a", 0)],
        (fun (_ : ℕ) (_ : ℕ) => (1 : ℤ)) 0 p.2 ≤ (fun (_ : ℕ) (_ : ℕ) => (1 : ℤ)) 0 q.2) ∧
      (∀ p ∈ l₁, (fun (_ : ℕ) (_ : ℕ) => (1 : ℤ)) 0 p.2 < (fun (_ : ℕ) (_ : ℕ) => (1 : ℤ)) 0 q.2) :=
  c5_tie_keeps_first_gallery_entry (fun _ _ => 1) 0 [("b", 0), ("a", 0)] (by decide)

/-- C9 fails as stated: with `threshold = 0` the empty-gallery best score 0
passes the `best_score >= threshold` guard, so Python's `None` is recorded as
a detected speaker and the run reports `identified: True` with a null
speaker. -/
theorem c9_empty_gallery_counterexample :
    ¬ claimC9Holds (E := ℕ) (S := ℤ) [0] 1 0 1 (fun _ => some 0) (fun _ _ => 0) := by
  have hcs : chunkSamples 1 1 = 1 := by
    unfold chunkSamples
    rw [show (1 : ℚ) * ((1 : ℕ) : ℚ) = 1 by norm_num]
    simp
  unfold claimC9Holds
  simp only [identify_multi_speaker, runState, hcs]
  intro h
  have h2 := h.2.2.1
  revert h2
  decide

/-- With an empty gallery and a positive threshold, no window is ever
recorded: the best score stays 0 and fails the `best_score >= threshold`
guard. -/
lemma processChunks_empty_gallery [LinearOrder S] [Zero S] (extract : Chunk ℚ → Option E)
    (sim : E → E → S) (threshold : S) (hthr : 0 < threshold) :
    ∀ (l : List (ℕ × Chunk ℚ)) (st : Detected S × List (MatchRec S)),
      processChunks extract sim ([] : List (String × E)) threshold l st = st := by
  intro l
  induction l with
  | nil => intro st; rfl
  | cons p rest ih =>
    obtain ⟨i, ch⟩ := p
    intro st
    cases hext : extract ch with
    | none =>
      rw [processChunks_cons_none _ _ _ _ _ _ _ _ hext]
      exact ih st
    | some emb =>
      have hth : ¬ threshold ≤ (bestMatch sim emb ([] : List (String × E))).2 :=
        not_le.mpr hthr
      rw [processChunks_cons_some_miss _ _ _ _ _ _ _ _ _ hext hth]
      exact ih st

/-- C9 (amended): over the empty gallery the per-window matcher always yields
`(None, 0)` with an empty score list; and provided the threshold is positive,
any empty-gallery run that completes successfully reports `identified: false`
with no candidates and no detected speakers.  (With `threshold ≤ 0` the code
instead records the null speaker, and with zero usable windows it returns an
error, so both provisos are necessary.) -/
theorem c9_empty_gallery_amended [LinearOrder S] [Zero S] (audio : List ℚ) (sr : ℕ)
    (threshold : S) (chunkDuration : ℚ) (extract : Chunk ℚ → Option E) (sim : E → E → S)
    (hthr : 0 < threshold) :
    (∀ emb : E, bestMatch sim emb ([] : List (String × E)) = (none, 0) ∧
      windowScores sim emb ([] : List (String × E)) = []) ∧
    ((identify_multi_speaker audio sr ([] : List (String × E)) threshold chunkDuration
        extract sim).success = true →
      (identify_multi_speaker audio sr ([] : List (String × E)) threshold chunkDuration
        extract sim).identified = false ∧
      (identify_multi_speaker audio sr ([] : List (String × E)) threshold chunkDuration
        extract sim).candidates = [] ∧
      (identify_multi_speaker audio sr ([] : List (String × E)) threshold chunkDuration
        extract sim).detectedSpeakers = []) := by
  constructor
  · intro emb
    exact ⟨rfl, rfl⟩
  · intro hsucc
    unfold identify_multi_speaker at hsucc ⊢
    by_cases hsplit : (split_audio_to_chunks audio sr (chunkSamples chunkDuration sr)).isEmpty
    · rw [if_pos hsplit] at hsucc
      exact absurd hsucc (by simp [failedSplitResult])
    · rw [if_neg hsplit] at hsucc ⊢
      have hrun : runState audio sr ([] : List (String × E)) threshold chunkDuration extract sim
          = ([], []) := by
        unfold runState
        exact processChunks_empty_gallery extract sim threshold hthr _ ([], [])
      rw [hrun]
      simp [maxByCount, notIdentifiedResult]

/-- Witness: the amended C9 theorem applied to a one-window run with
threshold 1. -/
theorem c9_empty_gallery_amended_witness :
    (∀ emb : ℕ, bestMatch (fun _ _ => (0 : ℤ)) emb ([] : List (String × ℕ)) = (none, 0) ∧
      windowScores (fun _ _ => (0 : ℤ)) emb ([] : List (String × ℕ)) = []) ∧
    ((identify_multi_speaker [0] 1 ([] : List (String × ℕ)) (1 : ℤ) 1
        (fun _ => some 0) (fun _ _ => 0)).success = true →
      (identify_multi_speaker [0] 1 ([] : List (String × ℕ)) (1 : ℤ) 1
        (fun _ => some 0) (fun _ _ => 0)).identified = false ∧
      (identify_multi_speaker [0] 1 ([] : List (String × ℕ)) (1 : ℤ) 1
        (fun _ => some 0) (fun _ _ => 0)).candidates = [] ∧
      (identify_multi_speaker [0] 1 ([] : List (String × ℕ)) (1 : ℤ) 1
        (fun _ => some 0) (fun _ _ => 0)).detectedSpeakers = []) :=
  c9_empty_gallery_amended [0] 1 1 1 (fun _ => some 0) (fun _ _ => 0) (by decide)

/-! ## Claim C7 -/

/-- Windows whose extraction fails are skipped without any effect on the loop
state: processing a chunk list equals processing only its
successfully-extracted chunks. -/
lemma processChunks_filter_extract [LinearOrder S] [Zero S] (extract : Chunk ℚ → Option E)
    (sim : E → E → S) (gallery : List (String × E)) (threshold : S) :
    ∀ (l : List (ℕ × Chunk ℚ)) (st : Detected S × List (MatchRec S)),
      processChunks extract sim gallery threshold l st
        = processChunks extract sim gallery threshold
            (l.filter fun ic => (extract ic.2).isSome) st := by
  intro l
  induction l with
  | nil => intro st; rfl
  | cons p rest ih =>
    obtain ⟨i, ch⟩ := p
    intro st
    cases hext : extract ch with
    | none =>
      have hfil : ((i, ch) :: rest).filter (fun ic => (extract ic.2).isSome)
          = rest.filter (fun ic => (extract ic.2).isSome) := by
        simp [List.filter_cons, hext]
      rw [processChunks_cons_none _ _ _ _ _ _ _ _ hext, hfil]
      exact ih st
    | some emb =>
      have hfil : ((i, ch) :: rest).filter (fun ic => (extract ic.2).isSome)
          = (i, ch) :: rest.filter (fun ic => (extract ic.2).isSome) := by
        simp [List.filter_cons, hext]
      rw [hfil]
      by_cases hth : threshold ≤ (bestMatch sim emb gallery).2
      · rw [processChunks_cons_some_hit _ _ _ _ _ _ _ _ _ hext hth,
          processChunks_cons_some_hit _ _ _ _ _ _ _ _ _ hext hth]
        exact ih _
      · rw [processChunks_cons_some_miss _ _ _ _ _ _ _ _ _ hext hth,
          processChunks_cons_some_miss _ _ _ _ _ _ _ _ _ hext hth]
        exact ih st

/-- Claim C7 (confirmed): an extraction failure on a window is recovered
locally — the window contributes nothing and the loop continues over the
remaining windows unchanged; and when extraction fails on every window, the
run still completes successfully with `identified: false` instead of
aborting. -/
theorem c7_extraction_failure_is_local [LinearOrder S] [Zero S] (audio : List ℚ)
    (sr : ℕ) (gallery : List (String × E)) (threshold : S) (chunkDuration : ℚ)
    (extract : Chunk ℚ → Option E) (sim : E → E → S) :
    (∀ (l : List (ℕ × Chunk ℚ)) (st : Detected S × List (MatchRec S)),
      processChunks extract sim gallery threshold l st
        = processChunks extract sim gallery threshold
            (l.filter fun ic => (extract ic.2).isSome) st) ∧
    ((split_audio_to_chunks audio sr (chunkSamples chunkDuration sr)).isEmpty = false →
      (∀ ic ∈ (split_audio_to_chunks audio sr (chunkSamples chunkDuration sr)).enum,
        extract ic.2 = none) →
      identify_multi_speaker audio sr gallery threshold chunkDuration extract sim
        = notIdentifiedResult S) := by
  constructor
  · exact processChunks_filter_extract extract sim gallery threshold
  · intro hne hall
    unfold identify_multi_speaker
    rw [if_neg (by rw [hne]; exact Bool.false_ne_true)]
    have hfil : (split_audio_to_chunks audio sr (chunkSamples chunkDuration sr)).enum.filter
        (fun ic => (extract ic.2).isSome) = [] := by
      rw [List.filter_eq_nil_iff]
      intro ic hic
      rw [hall ic hic]
      simp
    have hrun : runState audio sr gallery threshold chunkDuration extract sim = ([], []) := by
      unfold runState
      rw [processChunks_filter_extract extract sim gallery threshold _ ([], []), hfil]
      rfl
    rw [hrun]
    simp [maxByCount, notIdentifiedResult]

/-- Witness: the C7 theorem's all-windows-fail conclusion applied to a
one-window run whose extraction oracle always fails. -/
theorem c7_extraction_failure_is_local_witness :
    identify_multi_speaker (E := ℕ) (S := ℤ) [0] 1 [] 0 1
      (fun _ => none) (fun _ _ => 0) = notIdentifiedResult ℤ :=
  (c7_extraction_failure_is_local [0] 1 [] 0 1 (fun _ => none) (fun _ _ => 0)).2
    (by
      have hcs : chunkSamples 1 1 = 1 := by
        unfold chunkSamples
        rw [show (1 : ℚ) * ((1 : ℕ) : ℚ) = 1 by norm_num]
        simp
      rw [hcs]
      decide)
    (fun _ _ => rfl)

/-- C6 fails as stated: a segment whose text strips to empty is skipped with
`continue` before any output is appended (lines 95-97), so it produces no
output entry at all. -/
theorem c6_one_output_per_segment_counterexample :
    ¬ claimC6Holds (E := ℕ) (S := ℤ) [] 1 [] 1 (fun _ => 0) (fun _ _ => 0)
      [{ text := " ", start := 0, end_ := 1 }] := by
  unfold claimC6Holds
  decide

/-- C6 (amended): every input segment with non-empty stripped text produces
exactly one output entry — in particular a too-short segment is not dropped
but labeled with the "未识别" placeholder at confidence 0 — while segments
whose text strips to empty are skipped entirely, so the output length equals
the number of segments with non-empty stripped text. -/
theorem c6_one_output_per_nonempty_segment [LinearOrder S] [Zero S] (audio : List ℚ)
    (sr : ℕ) (gallery : List (String × E)) (threshold : S) (extractSeg : List ℚ → E)
    (sim : E → E → S) (segs : List Segment) :
    (transcribe_with_speaker_identification audio sr gallery threshold extractSeg sim
        segs).length
      = (segs.filter fun seg => decide (¬ pyStrip seg.text = "")).length ∧
    (∀ seg ∈ segs, pyStrip seg.text ≠ "" →
      ((segmentSlice audio sr seg).length : ℚ) < (sr : ℚ) * (1 / 2) →
      processSegment audio sr gallery threshold extractSeg sim seg
        = some { text := pyStrip seg.text, start := seg.start, end_ := seg.end_,
                 speaker_name := some "未识别", speaker_confidence := 0 }) := by
  constructor
  · induction segs with
    | nil => rfl
    | cons seg rest ih =>
      by_cases h : pyStrip seg.text = ""
      · have hproc : processSegment audio sr gallery threshold extractSeg sim seg = none := by
          simp [processSegment, h]
        rw [List.filter_cons]
        simp only [transcribe_with_speaker_identification, hproc, h]
        simpa using ih
      · obtain ⟨o, ho⟩ : ∃ o, processSegment audio sr gallery threshold extractSeg sim seg
            = some o := by
          simp only [processSegment, if_neg h]
          split
          · exact ⟨_, rfl⟩
          · split
            · exact ⟨_, rfl⟩
            · exact ⟨_, rfl⟩
        rw [List.filter_cons]
        simp only [transcribe_with_speaker_identification, ho, h]
        simp only [List.length_cons]
        rw [ih]
        simp [h]
  · intro seg _ hne hshort
    unfold processSegment
    rw [if_neg hne, if_pos hshort]

/-- Witness: the amended C6 theorem applied to a single short non-empty
segment over an empty waveform. -/
theorem c6_one_output_per_nonempty_segment_witness :
    processSegment (E := ℕ) (S := ℤ) [] 1 [] 1 (fun _ => 0) (fun _ _ => 0)
        { text := "hi", start := 0, end_ := 1 }
      = some { text := pyStrip "hi", start := 0, end_ := 1,
               speaker_name := some "未识别", speaker_confidence := 0 } :=
  (c6_one_output_per_nonempty_segment [] 1 [] 1 (fun _ => 0) (fun _ _ => 0)
      [{ text := "hi", start := 0, end_ := 1 }]).2
    { text := "hi", start := 0, end_ := 1 }
    (List.mem_cons_self _ _)
    (by decide)
    (by
      have hs : segmentSlice [] 1 { text := "hi", start := 0, end_ := 1 } = [] := by
        simp [segmentSlice]
      rw [hs]
      norm_num)

lemma sumSq_nonneg (a : List ℝ) : 0 ≤ sumSq a := by
  apply List.sum_nonneg
  intro x hx
  obtain ⟨y, _, rfl⟩ := List.mem_map.mp hx
  exact mul_self_nonneg y

lemma simEps_pos : (0 : ℝ) < simEps := by
  unfold simEps
  norm_num

lemma l2norm_nonneg (a : List ℝ) : 0 ≤ l2norm a :=
  Real.sqrt_nonneg _

lemma denom_pos (a : List ℝ) : 0 < l2norm a + simEps :=
  add_pos_of_nonneg_of_pos (l2norm_nonneg a) simEps_pos

/-- Dividing both vectors elementwise divides the dot product by the product
of the divisors (with ℝ's total division this needs no nonzero side
conditions). -/
lemma dotList_map_div (a : List ℝ) (x y : ℝ) :
    ∀ b : List ℝ,
      dotList (a.map fun t => t / x) (b.map fun t => t / y) = dotList a b / (x * y) := by
  induction a with
  | nil =>
    intro b
    simp [dotList]
  | cons t ts ih =>
    intro b
    cases b with
    | nil => simp [dotList]
    | cons u us =>
      simp only [List.map_cons, dotList, List.zipWith_cons_cons, List.sum_cons]
      have hts := ih us
      simp only [dotList] at hts
      rw [hts, div_mul_div_comm, div_add_div_same]

lemma dotList_self (a : List ℝ) : dotList a a = sumSq a := by
  induction a with
  | nil => rfl
  | cons t ts ih =>
    simp only [dotList, List.zipWith_cons_cons, List.sum_cons, sumSq, List.map_cons] at ih ⊢
    rw [ih]

/-- Cauchy–Schwarz for the list dot product. -/
lemma dotList_sq_le (a : List ℝ) :
    ∀ b : List ℝ, (dotList a b) ^ 2 ≤ sumSq a * sumSq b := by
  induction a with
  | nil =>
    intro b
    simp [dotList, sumSq]
  | cons x xs ih =>
    intro b
    cases b with
    | nil =>
      simp only [dotList, List.zipWith_nil_right, List.sum_nil]
      have := mul_nonneg (sumSq_nonneg (x :: xs)) (sumSq_nonneg ([] : List ℝ))
      simpa using this
    | cons y ys =>
      have hd := ih ys
      simp only [dotList, sumSq] at hd
      have hA2 : (0 : ℝ) ≤ (List.map (fun x => x * x) xs).sum := sumSq_nonneg xs
      have hB2 : (0 : ℝ) ≤ (List.map (fun x => x * x) ys).sum := sumSq_nonneg ys
      simp only [dotList, List.zipWith_cons_cons, List.sum_cons, sumSq, List.map_cons]
      set d := (List.zipWith (fun x y => x * y) xs ys).sum
      set A := (List.map (fun x => x * x) xs).sum
      set B := (List.map (fun x => x * x) ys).sum
      rcases eq_or_lt_of_le hB2 with hB0 | hBpos
      · have hAB : A * B = 0 := by rw [← hB0]; ring
        have hd0 : d = 0 := by
          have h1 : d ^ 2 = 0 := le_antisymm (by linarith) (sq_nonneg d)
          exact pow_eq_zero_iff (by omega) |>.mp h1
        rw [hd0, ← hB0]
        nlinarith [mul_nonneg hA2 (mul_self_nonneg y)]
      · nlinarith [sq_nonneg (x * B - y * d),
          mul_nonneg (add_nonneg (mul_self_nonneg y) (le_of_lt hBpos)) (sub_nonneg.mpr hd),
          hBpos]

/-- The epsilon-guarded cosine is strictly inside `(-1, 1)`. -/
lemma abs_cos_lt_one (a b : List ℝ) :
    |dotList a b / ((l2norm a + simEps) * (l2norm b + simEps))| < 1 := by
  have hA := sumSq_nonneg a
  have hB := sumSq_nonneg b
  have habs : |dotList a b| ≤ Real.sqrt (sumSq a) * Real.sqrt (sumSq b) := by
    have h1 : |dotList a b| = Real.sqrt ((dotList a b) ^ 2) :=
      (Real.sqrt_sq_eq_abs _).symm
    rw [h1, ← Real.sqrt_mul hA]
    exact Real.sqrt_le_sqrt (dotList_sq_le a b)
  have hdenom : Real.sqrt (sumSq a) * Real.sqrt (sumSq b)
      < (l2norm a + simEps) * (l2norm b + simEps) := by
    unfold l2norm
    nlinarith [Real.sqrt_nonneg (sumSq a), Real.sqrt_nonneg (sumSq b), simEps_pos]
  have hpos : 0 < (l2norm a + simEps) * (l2norm b + simEps) :=
    mul_pos (denom_pos a) (denom_pos b)
  rw [abs_div, abs_of_pos hpos, div_lt_one hpos]
  calc |dotList a b| ≤ Real.sqrt (sumSq a) * Real.sqrt (sumSq b) := habs
    _ < (l2norm a + simEps) * (l2norm b + simEps) := by
        unfold l2norm at hdenom ⊢
        exact hdenom

/-- The normalized dot product factors through the raw one. -/
lemma normalized_dot_eq (a b : List ℝ) :
    dotList (normalizeVec a) (normalizeVec b)
      = dotList a b / ((l2norm a + simEps) * (l2norm b + simEps)) := by
  unfold normalizeVec
  exact dotList_map_div a (l2norm a + simEps) (l2norm b + simEps) b

/-- An all-zero left vector annihilates the dot product. -/
lemma dotList_eq_zero_of_left_zero (a : List ℝ) :
    ∀ b : List ℝ, (∀ x ∈ a, x = 0) → dotList a b = 0 := by
  induction a with
  | nil => intro b _; rfl
  | cons t ts ih =>
    intro b hz
    cases b with
    | nil => rfl
    | cons u us =>
      simp only [dotList, List.zipWith_cons_cons, List.sum_cons]
      have ht : t = 0 := hz t (List.mem_cons_self t ts)
      have hts := ih us fun x hx => hz x (List.mem_cons_of_mem t hx)
      simp only [dotList] at hts
      rw [ht, hts, zero_mul, zero_add]

/-- Self-similarity sits strictly inside the scale: positive but strictly
below the maximum, because the epsilon inflates the denominator. -/
lemma self_cos_bounds (a : List ℝ) (ha : 0 < sumSq a) :
    0 < dotList a a / ((l2norm a + simEps) * (l2norm a + simEps)) ∧
    dotList a a / ((l2norm a + simEps) * (l2norm a + simEps)) < 1 := by
  have hpos : 0 < (l2norm a + simEps) * (l2norm a + simEps) :=
    mul_pos (denom_pos a) (denom_pos a)
  constructor
  · rw [dotList_self]
    exact div_pos ha hpos
  · rw [dotList_self, div_lt_one hpos]
    have hs : Real.sqrt (sumSq a) * Real.sqrt (sumSq a) = sumSq a :=
      Real.mul_self_sqrt (le_of_lt ha)
    unfold l2norm
    nlinarith [Real.sqrt_nonneg (sumSq a), simEps_pos]

/-- C8 fails as stated: already for the one-dimensional vector `[1]` the
`+ 1e-8` in each norm inflates the denominator, so the self-cosine is
`1 / (1 + 1e-8)^2 < 1`, strictly below the scale maximum in both policies. -/
theorem c8_self_similarity_counterexample : ¬ claimC8Holds [1] := by
  intro h
  have hb : threedspeaker_service.compute_similarity [1] [1] < 1 := by
    unfold threedspeaker_service.compute_similarity
    rw [normalized_dot_eq]
    exact (self_cos_bounds [1] (by norm_num [sumSq])).2
  exact absurd h.2 (ne_of_lt hb)

/-- C8 (amended): for every non-zero vector, self-similarity is strictly
below the maximum of the configured scale (though still in its upper half):
the raw cosine lies in `(0, 1)` and the rescaled score in `(1/2, 1)`, because
the `1e-8` added to each norm makes the denominator strictly exceed
`‖a‖²`. -/
theorem c8_self_similarity_strictly_below_max (a : List ℝ) (ha : 0 < sumSq a) :
    (0 < threedspeaker_service.compute_similarity a a ∧
      threedspeaker_service.compute_similarity a a < 1) ∧
    (1 / 2 < wespeaker_service.compute_similarity a a ∧
      wespeaker_service.compute_similarity a a < 1) := by
  have h := self_cos_bounds a ha
  constructor
  · unfold threedspeaker_service.compute_similarity
    rw [normalized_dot_eq]
    exact h
  · unfold wespeaker_service.compute_similarity
    rw [normalized_dot_eq]
    constructor
    · linarith [h.1]
    · linarith [h.2]

/-- Witness: the amended C8 theorem applied to the vector `[1]`. -/
theorem c8_self_similarity_strictly_below_max_witness :
    (0 < threedspeaker_service.compute_similarity [1] [1] ∧
      threedspeaker_service.compute_similarity [1] [1] < 1) ∧
    (1 / 2 < wespeaker_service.compute_similarity [1] [1] ∧
      wespeaker_service.compute_similarity [1] [1] < 1) :=
  c8_self_similarity_strictly_below_max [1] (by norm_num [sumSq])

/-! ## Claim C10 -/

/-- Claim C10 (confirmed): `compute_similarity` is total on equal-length
vectors — the `1e-8` makes both normalizing denominators strictly positive,
the returned score always lies in `[0, 1]`, and two all-zero vectors score
exactly `0.5`.  The equal-length precondition mirrors `np.dot` (which raises
on mismatched 1-d shapes); in the list model, where `zipWith` truncates, the
bounds hold regardless, so the hypothesis is not otherwise used. -/
theorem c10_similarity_total_and_bounded (a b : List ℝ) (hlen : a.length = b.length) :
    0 < l2norm a + simEps ∧ 0 < l2norm b + simEps ∧
    0 ≤ wespeaker_service.compute_similarity a b ∧
    wespeaker_service.compute_similarity a b ≤ 1 ∧
    ((∀ x ∈ a, x = 0) → (∀ x ∈ b, x = 0) →
      wespeaker_service.compute_similarity a b = 1 / 2) := by
  have habs := abs_lt.mp (abs_cos_lt_one a b)
  refine ⟨denom_pos a, denom_pos b, ?_, ?_, ?_⟩
  · unfold wespeaker_service.compute_similarity
    rw [normalized_dot_eq]
    linarith [habs.1]
  · unfold wespeaker_service.compute_similarity
    rw [normalized_dot_eq]
    linarith [habs.2]
  · intro hza _
    unfold wespeaker_service.compute_similarity
    rw [normalized_dot_eq, dotList_eq_zero_of_left_zero a b hza, zero_div]
    norm_num

/-- Witness: the C10 theorem applied to the pair of one-dimensional zero
vectors, whose similarity is exactly one half. -/
theorem c10_similarity_total_and_bounded_witness :
    wespeaker_service.compute_similarity [0] [0] = 1 / 2 :=
  (c10_similarity_total_and_bounded [0] [0] rfl).2.2.2.2 (by simp) (by simp)

end HennessyNight
